import Mathlib

/-!
# Verification of the pyflame sampling driver (`src/pyflame.cc`)

Shallow embedding of the driver translation unit `src/pyflame.cc`:
the folded-output renderer `PrintFrames`, the timestamped renderer
`PrintFramesTS`, and the sampling/collection loop plus error handling of
`main`.  Frame sequences are leaf-first lists of strings; timestamps are
already-converted microsecond counts (the code stores a
`system_clock::time_point` and prints
`duration_cast<microseconds>(ts.time_since_epoch()).count()`; only the
microsecond value is ever observable in the output).

The C++ `buckets_t` is `std::unordered_map<frames_t, size_t>`, whose
iteration order is implementation-defined; the model fixes first-insertion
order, which is one legal refinement.  All properties proved below are
either insensitive to bucket order or are stated on single-bucket inputs,
where every order coincides.
-/

namespace Pyflame

/-- One stack snapshot, `struct FrameTS {time_point ts; frames_t frames;}`
(declared in `frame.h`): a microsecond timestamp and the leaf-first frame
sequence; an empty sequence denotes an idle tick. -/
structure FrameTS where
  ts : Nat
  frames : List String
  deriving DecidableEq, Repr

/-- The `(idle) COUNT` line printed by `PrintFrames` when `idle` is nonzero. -/
def idleLine (n : Nat) : String := "(idle) " ++ toString n

/-- One step of bucket accumulation: `buckets.find(frames)` followed by
`insert {frames, 1}` or `bucket->second++` (lines 57-62 of pyflame.cc).
The model keeps buckets in first-insertion order. -/
def insertBucket : List (List String × Nat) → List String → List (List String × Nat)
  | [], k => [(k, 1)]
  | (k', n) :: bs, k =>
      if k' = k then (k', n + 1) :: bs else (k', n) :: insertBucket bs k

/-- The bucket map built from the call-stack list (lines 55-63). -/
def bucketsOf (call_stacks : List FrameTS) : List (List String × Nat) :=
  call_stacks.foldl (fun bs c => insertBucket bs c.frames) []

/-- The folded loop over the reversed (root-first) frame list (lines
70-75): every frame before `last` is printed with a `";"`, the last one
without. -/
def foldedStackLoop : List String → String
  | [] => ""
  | [f] => f
  | f :: fs => f ++ ";" ++ foldedStackLoop fs

/-- One folded output line: the frames printed from `rbegin` (root first),
';'-separated, then a space and the count (lines 70-75).  Only applied to
non-empty keys. -/
def foldedLine (frames : List String) (n : Nat) : String :=
  foldedStackLoop frames.reverse ++ " " ++ toString n

/-- The bucket-printing loop of `PrintFrames` (lines 65-76): returns the
stdout lines and a flag that is true when the `kv.first.empty()` branch was
taken, in which case "fatal error" went to stderr and the remaining output
was abandoned (`return`). -/
def printBuckets : List (List String × Nat) → List String × Bool
  | [] => ([], false)
  | (k, n) :: bs =>
      if k = [] then ([], true)
      else
        let r := printBuckets bs
        (foldedLine k n :: r.1, r.2)

/-- `PrintFrames` (lines 50-77): optional `(idle) COUNT` line, then the
folded bucket lines.  First component: stdout lines; second: whether the
fatal-error branch fired. -/
def PrintFrames (call_stacks : List FrameTS) (idle : Nat) : List String × Bool :=
  let pre := if idle ≠ 0 then [idleLine idle] else []
  let r := printBuckets (bucketsOf call_stacks)
  (pre ++ r.1, r.2)

/-- The stack loop of `PrintFramesTS` (lines 92-95): each frame from
`rbegin` is printed with a trailing `";"` — i.e. the root-first join where
EVERY frame, the last included, is followed by a semicolon (the final
newline ends the line). -/
def tsStackLoop : List String → String
  | [] => ""
  | f :: fs => f ++ ";" ++ tsStackLoop fs

/-- The lines `PrintFramesTS` emits for one snapshot: timestamp, then
`(idle)` or the trailing-semicolon join of the reversed frames. -/
def tsLinesOf (c : FrameTS) : List String :=
  toString c.ts ::
    (if c.frames = [] then ["(idle)"]
     else [tsStackLoop c.frames.reverse])

/-- `PrintFramesTS` (lines 80-98): stdout lines of the timestamped mode. -/
def PrintFramesTS (call_stacks : List FrameTS) : List String :=
  call_stacks.flatMap tsLinesOf

/-- What one iteration of the sampling loop observes: the tick's
wall-clock reading `now` (microseconds) and the result of
`FirstFrameAddr`/`GetStack`: `none` when `frame_addr == 0` (idle), `some
fs` for the frames of a running stack (lines 176-190). -/
structure TickObs where
  now : Nat
  frames : Option (List String)
  deriving DecidableEq, Repr

/-- One iteration's update of `(call_stacks, idle)` (lines 178-190): an
idle tick increments `idle` — and, only when timestamps are requested,
records an empty snapshot — but ONLY under `include_idle`; a non-idle tick
always records its snapshot. -/
def collectTick (include_idle include_ts : Bool) (acc : List FrameTS × Nat)
    (t : TickObs) : List FrameTS × Nat :=
  match t.frames with
  | none =>
      if include_idle then
        (acc.1 ++ (if include_ts then [⟨t.now, []⟩] else []), acc.2 + 1)
      else acc
  | some fs => (acc.1 ++ [⟨t.now, fs⟩], acc.2)

/-- The data collected by the sampling loop over a sequence of completed
ticks, starting from `call_stacks = {}`, `idle = 0` (lines 165-197). -/
def collect (include_idle include_ts : Bool) (ticks : List TickObs) :
    List FrameTS × Nat :=
  ticks.foldl (collectTick include_idle include_ts) ([], 0)

/-- Number of idle ticks in a run. -/
def idleTicks (ticks : List TickObs) : Nat :=
  (ticks.filter (fun t => t.frames = none)).length

/-- Ptrace-visible events of the sampling loop, for the temporal claim:
`attach` = `PtraceAttach`, `read` = the tick's snapshot reads
(`FirstFrameAddr` and, when non-idle, `GetStack`), `detach` =
`PtraceDetach`, `sleep` = `sleep_for(interval)`. -/
inductive Ev where
  | attach
  | read
  | detach
  | sleep
  deriving DecidableEq, Repr

/-- Events of the loop body (lines 175-197): each iteration performs its
reads, then tests `now + interval >= end` and `break`s — WITHOUT detaching
— when it holds; otherwise it detaches, sleeps, re-attaches and repeats. -/
def loopEvents (interval endT : Nat) : List TickObs → List Ev
  | [] => []
  | t :: rest =>
      Ev.read ::
        (if t.now + interval ≥ endT then []
         else Ev.detach :: Ev.sleep :: Ev.attach :: loopEvents interval endT rest)

/-- The run's full ptrace event trace: the initial `PtraceAttach(pid)`
(line 168) followed by the loop's events. -/
def runEvents (interval endT : Nat) (ticks : List TickObs) : List Ev :=
  Ev.attach :: loopEvents interval endT ticks

/-- C `isspace` in the default locale, as skipped by `strtol`. -/
def isSpaceC (c : Char) : Bool :=
  c = ' ' ∨ c = '\t' ∨ c = '\n' ∨ c = '\x0b' ∨ c = '\x0c' ∨ c = '\r'

/-- C `isdigit`. -/
def isDigitC (c : Char) : Bool := '0' ≤ c ∧ c ≤ '9'

/-- The sign and remaining characters after `strtol`'s optional sign. -/
def strtolSign : List Char → Int × List Char
  | '-' :: cs => (-1, cs)
  | '+' :: cs => (1, cs)
  | cs => (1, cs)

/-- The digit run `strtol` consumes from `s` in base 10: leading
whitespace skipped, optional sign, then the longest initial digit run. -/
def strtolDigits (s : String) : List Char :=
  ((strtolSign (s.data.dropWhile isSpaceC)).2).takeWhile isDigitC

/-- `LONG_MAX` on the LP64 targets pyflame builds for. -/
def longMax : Int := 2 ^ 63 - 1

/-- `LONG_MIN`. -/
def longMin : Int := -(2 ^ 63)

/-- `std::strtol(s, nullptr, 10)` (line 159): skip whitespace, optional
sign, longest digit run (value 0 when the run is empty), clamped to the
`long` range on overflow.  No error is reported through the return value. -/
def strtol10 (s : String) : Int :=
  let sgn := (strtolSign (s.data.dropWhile isSpaceC)).1
  let v : Int :=
    sgn * ((strtolDigits s).foldl (fun a c => 10 * a + ((c.toNat : Int) - 48)) 0)
  max longMin (min longMax v)

/-- `std::numeric_limits<pid_t>::max()`: `pid_t` is `int`, 32 bits. -/
def pidMax : Int := 2 ^ 31 - 1

/-- `std::numeric_limits<pid_t>::min()`. -/
def pidMin : Int := -(2 ^ 31)

/-- The usage text printed on a positional-argument-count error. -/
def usageStr : String :=
  "Usage: pyflame [options] <pid>\n\nGeneral Options:\n" ++
  "  -h, --help           Show help\n" ++
  "  -s, --seconds=SECS   How many seconds to run for (default 1)\n" ++
  "  -r, --rate=RATE      Sample rate, as a fractional value of seconds (default 0.001)\n" ++
  "  -v, --version        Show the version\n" ++
  "  -x, --exclude-idle   Exclude idle time from statistics\n" ++
  "  -t, --timestamp      Include timestamps for each stacktrace\n"

/-- How the traced environment behaves once sampling starts: either the
startup calls (`PtraceAttach`, `Namespace`, `ThreadStateAddr`, lines
168-170) throw a `PtraceException` with message `msg`, or the loop
completes the given ticks and then either breaks normally (`exc = none`)
or the next ptrace call throws mid-run (`exc = some msg`). -/
inductive RunOutcome where
  | startupFail (msg : String)
  | run (ticks : List TickObs) (exc : Option String)
  deriving DecidableEq, Repr

/-- The observable result of `main` (lines 155-221): exit code, stdout
lines, stderr lines, and the PID passed to `PtraceAttach` when an attach
was attempted (`none` when `main` returned before line 168). -/
structure MainRes where
  exit : Nat
  out : List String
  err : List String
  attached : Option Int
  deriving DecidableEq, Repr

/-- Emission of the collected data in the configured format (lines
198-202 and 206-211): stdout lines plus the `PrintFrames` fatal-error
stderr line when it fired. -/
def emitOutput (include_ts : Bool) (cs : List FrameTS) (idle : Nat) :
    List String × List String :=
  if include_ts then (PrintFramesTS cs, [])
  else
    let r := PrintFrames cs idle
    (r.1, if r.2 then ["fatal error"] else [])

/-- `main` after option parsing (lines 155-221), over the positional
arguments `getopt` left (`optind != argc - 1` iff their number is not 1;
`argv[argc - 1]` is the single positional after GNU permutation), the
`-x`/`-t` flags, and the traced environment's behavior.  Mirrors: usage
check, `strtol` parse, `pid_t` range check, the try block, and the
`PtraceException` handler that still prints collected data and exits 0
unless nothing was collected. -/
def mainModel (positionals : List String) (include_idle include_ts : Bool)
    (oc : RunOutcome) : MainRes :=
  match positionals with
  | [pidArg] =>
    let pid := strtol10 pidArg
    if pid > pidMax ∨ pid < pidMin then
      ⟨1, [], ["PID " ++ toString pid ++ " is out of valid PID range."], none⟩
    else
      match oc with
      | .startupFail msg => ⟨1, [], [msg], some pid⟩
      | .run ticks none =>
          let c := collect include_idle include_ts ticks
          let o := emitOutput include_ts c.1 c.2
          ⟨0, o.1, o.2, some pid⟩
      | .run ticks (some msg) =>
          let c := collect include_idle include_ts ticks
          if c.1 ≠ [] ∨ c.2 ≠ 0 then
            let o := emitOutput include_ts c.1 c.2
            ⟨0, o.1, o.2, some pid⟩
          else ⟨1, [], [msg], some pid⟩
  | _ => ⟨1, [], [usageStr], none⟩

/-- The claim's own notion, written from its words, for comparison with
`strtol10`: a string that IS a valid decimal number — an optional sign
followed by a non-empty digit run and nothing else. -/
def isValidDecimal (s : String) : Bool :=
  let sgn := strtolSign s.data
  sgn.2 ≠ [] ∧ sgn.2.all isDigitC

/-- The counts stored in a bucket list under a given key, in order.  A
well-formed bucket list has at most one entry per key, so this is `[]` or
a singleton `[count]`. -/
def countsFor : List (List String × Nat) → List String → List Nat
  | [], _ => []
  | (k, n) :: bs, fs => if k = fs then n :: countsFor bs fs else countsFor bs fs

/-- Modelled from the spec: the Frame Walker (`GetStack`, declared in
`frame.h`; its implementation is not part of this translation unit)
produces, for a non-null top frame pointer, one FrameDescriptor per walked
frame record starting at that frame (spec §4.4), hence a non-empty
sequence — "an empty sequence always means idle, by construction".  A tick
observation list is walker-consistent when no non-idle tick carries an
empty frame sequence. -/
def WalkerSeqsNonempty (ticks : List TickObs) : Prop :=
  ∀ t ∈ ticks, t.frames ≠ some []

instance (ticks : List TickObs) : Decidable (WalkerSeqsNonempty ticks) :=
  List.decidableBAll _ ticks

end Pyflame

namespace Pyflame

/-! ## Bucket lemmas -/

theorem countsFor_insertBucket_self (bs : List (List String × Nat)) (k : List String) :
    countsFor (insertBucket bs k) k =
      match countsFor bs k with
      | [] => [1]
      | n :: r => (n + 1) :: r := by
  induction bs with
  | nil => simp [insertBucket, countsFor]
  | cons b bs ih =>
      obtain ⟨k', n⟩ := b
      by_cases hk : k' = k
      · subst hk
        simp [insertBucket, countsFor]
      · simp [insertBucket, hk, countsFor, ih]

theorem countsFor_insertBucket_ne (bs : List (List String × Nat)) (k fs : List String)
    (h : fs ≠ k) :
    countsFor (insertBucket bs k) fs = countsFor bs fs := by
  induction bs with
  | nil => simp [insertBucket, countsFor, Ne.symm h]
  | cons b bs ih =>
      obtain ⟨k', n⟩ := b
      by_cases hk : k' = k
      · subst hk
        simp [insertBucket, countsFor, Ne.symm h]
      · simp only [insertBucket, if_neg hk, countsFor]
        by_cases hfs : k' = fs <;> simp [hfs, ih]

theorem countsFor_foldl_insertBucket (cs : List FrameTS) :
    ∀ (bs : List (List String × Nat)) (fs : List String),
      countsFor (cs.foldl (fun a c => insertBucket a c.frames) bs) fs =
        match countsFor bs fs with
        | [] =>
            if (cs.map FrameTS.frames).count fs = 0 then []
            else [(cs.map FrameTS.frames).count fs]
        | n :: r => (n + (cs.map FrameTS.frames).count fs) :: r := by
  induction cs with
  | nil =>
      intro bs fs
      cases h : countsFor bs fs <;> simp [h]
  | cons c cs ih =>
      intro bs fs
      simp only [List.foldl_cons]
      rw [ih (insertBucket bs c.frames) fs]
      by_cases hc : c.frames = fs
      · subst hc
        rw [countsFor_insertBucket_self]
        have hcc : (List.map FrameTS.frames (c :: cs)).count c.frames
            = (List.map FrameTS.frames cs).count c.frames + 1 := by
          simp [List.count_cons]
        rw [hcc]
        cases h : countsFor bs c.frames with
        | nil => simp [Nat.add_comm]
        | cons n r => simp [Nat.add_comm, Nat.add_assoc, Nat.add_left_comm]
      · rw [countsFor_insertBucket_ne bs c.frames fs (Ne.symm hc)]
        have hcc : (List.map FrameTS.frames (c :: cs)).count fs
            = (List.map FrameTS.frames cs).count fs := by
          simp [List.count_cons, Ne.symm hc]
        rw [hcc]

/-- The count sheet of the bucket map: for every frame sequence there is
exactly one bucket when it occurs in the input, none otherwise, and the
stored count is the number of occurrences. -/
theorem countsFor_bucketsOf (cs : List FrameTS) (fs : List String) :
    countsFor (bucketsOf cs) fs =
      if (cs.map FrameTS.frames).count fs = 0 then []
      else [(cs.map FrameTS.frames).count fs] := by
  have h := countsFor_foldl_insertBucket cs [] fs
  simpa [bucketsOf, countsFor] using h

theorem insertBucket_keys (bs : List (List String × Nat)) (k : List String)
    (b : List String × Nat) (hb : b ∈ insertBucket bs k) :
    b.1 = k ∨ b.1 ∈ bs.map Prod.fst := by
  induction bs with
  | nil =>
      simp [insertBucket] at hb
      simp [hb]
  | cons b' bs ih =>
      obtain ⟨k', n⟩ := b'
      by_cases hk : k' = k
      · subst hk
        simp only [insertBucket, if_pos rfl] at hb
        rcases List.mem_cons.mp hb with h | h
        · left; rw [h]
        · right
          rw [List.map_cons]
          exact List.mem_cons_of_mem _ (List.mem_map_of_mem Prod.fst h)
      · simp only [insertBucket, if_neg hk] at hb
        rcases List.mem_cons.mp hb with h | h
        · right
          rw [List.map_cons, h]
          exact List.mem_cons_self _ _
        · rcases ih h with h' | h'
          · exact Or.inl h'
          · right
            rw [List.map_cons]
            exact List.mem_cons_of_mem _ h'

theorem bucketsOf_keys (cs : List FrameTS) :
    ∀ b ∈ bucketsOf cs, b.1 ∈ cs.map FrameTS.frames := by
  suffices h : ∀ (bs : List (List String × Nat)) (b : List String × Nat),
      b ∈ cs.foldl (fun a c => insertBucket a c.frames) bs →
      b.1 ∈ bs.map Prod.fst ∨ b.1 ∈ cs.map FrameTS.frames by
    intro b hb
    rcases h [] b hb with h' | h'
    · simp at h'
    · exact h'
  induction cs with
  | nil =>
      intro bs b hb
      simp only [List.foldl_nil] at hb
      exact Or.inl (List.mem_map_of_mem Prod.fst hb)
  | cons c cs ih =>
      intro bs b hb
      simp only [List.foldl_cons] at hb
      rcases ih (insertBucket bs c.frames) b hb with h' | h'
      · rcases List.mem_map.mp h' with ⟨b', hb', hfst⟩
        rcases insertBucket_keys bs c.frames b' hb' with h2 | h2
        · right
          rw [List.map_cons, ← hfst, h2]
          exact List.mem_cons_self _ _
        · left
          rw [← hfst]
          exact h2
      · right
        rw [List.map_cons]
        exact List.mem_cons_of_mem _ h'

theorem printBuckets_of_keys_ne_nil (bs : List (List String × Nat))
    (h : ∀ b ∈ bs, b.1 ≠ ([] : List String)) :
    printBuckets bs = (bs.map fun b => foldedLine b.1 b.2, false) := by
  induction bs with
  | nil => simp [printBuckets]
  | cons b bs ih =>
      obtain ⟨k, n⟩ := b
      have hk : k ≠ [] := h (k, n) (List.mem_cons_self _ _)
      simp only [printBuckets, if_neg hk]
      rw [ih (fun b hb => h b (List.mem_cons_of_mem _ hb))]
      simp

/-! ## Collection-loop lemmas -/

/-- The snapshot materialized by a non-idle tick. -/
def snapOf (t : TickObs) : Option FrameTS :=
  t.frames.map fun fs => ⟨t.now, fs⟩

theorem foldl_collectTick_excluded (it : Bool) (ticks : List TickObs) :
    ∀ acc : List FrameTS × Nat,
      ticks.foldl (collectTick false it) acc =
        (acc.1 ++ ticks.filterMap snapOf, acc.2) := by
  induction ticks with
  | nil => intro acc; simp
  | cons t ts ih =>
      intro acc
      rw [List.foldl_cons, ih]
      cases h : t.frames with
      | none => simp [collectTick, h, List.filterMap_cons, snapOf]
      | some fs => simp [collectTick, h, List.filterMap_cons, snapOf]

theorem foldl_collectTick_included_ts (ticks : List TickObs) :
    ∀ acc : List FrameTS × Nat,
      ticks.foldl (collectTick true true) acc =
        (acc.1 ++ ticks.map (fun t => ⟨t.now, t.frames.getD []⟩),
          acc.2 + idleTicks ticks) := by
  induction ticks with
  | nil => intro acc; simp [idleTicks]
  | cons t ts ih =>
      intro acc
      rw [List.foldl_cons, ih]
      cases h : t.frames with
      | none =>
          simp [collectTick, h, idleTicks, List.filter_cons, Nat.add_comm,
            Nat.add_assoc, Nat.add_left_comm]
      | some fs => simp [collectTick, h, idleTicks, List.filter_cons]

theorem foldl_collectTick_included_nots (ticks : List TickObs) :
    ∀ acc : List FrameTS × Nat,
      ticks.foldl (collectTick true false) acc =
        (acc.1 ++ ticks.filterMap snapOf, acc.2 + idleTicks ticks) := by
  induction ticks with
  | nil => intro acc; simp [idleTicks]
  | cons t ts ih =>
      intro acc
      rw [List.foldl_cons, ih]
      cases h : t.frames with
      | none =>
          simp [collectTick, h, idleTicks, List.filter_cons, snapOf,
            List.filterMap_cons, Nat.add_comm, Nat.add_assoc, Nat.add_left_comm]
      | some fs =>
          simp [collectTick, h, idleTicks, List.filter_cons, snapOf,
            List.filterMap_cons]

/-- With `-x` (idle excluded) the loop records exactly the non-idle
snapshots and never increments the idle counter, whatever the timestamp
flag. -/
theorem collect_excluded (it : Bool) (ticks : List TickObs) :
    collect false it ticks = (ticks.filterMap snapOf, 0) := by
  rw [collect, foldl_collectTick_excluded]
  simp

/-- With idle included and timestamps on, every tick is materialized, an
idle tick as an empty-frames snapshot. -/
theorem collect_included_ts (ticks : List TickObs) :
    collect true true ticks =
      (ticks.map (fun t => ⟨t.now, t.frames.getD []⟩), idleTicks ticks) := by
  rw [collect, foldl_collectTick_included_ts]
  simp

/-- With idle included and timestamps off, idle ticks are only counted. -/
theorem collect_included_nots (ticks : List TickObs) :
    collect true false ticks = (ticks.filterMap snapOf, idleTicks ticks) := by
  rw [collect, foldl_collectTick_included_nots]
  simp

/-! ## Claim C1 -/

/-- C1, as stated, is false: a snapshot list containing an empty frame
sequence (one occurrence of the unique frame sequence `[]`) produces NO
output line at all — `PrintFrames` takes the fatal-error branch and
abandons the output — instead of exactly one line with count 1. -/
theorem c1_counterexample :
    (PrintFrames [FrameTS.mk 0 []] 0).1 = [] ∧
    (PrintFrames [FrameTS.mk 0 []] 0).2 = true ∧
    (([FrameTS.mk 0 []].map FrameTS.frames).count [] = 1) := by decide

/-- C1 (amended): for every snapshot list whose frame sequences are all
non-empty, the folded output is one line per bucket (after the optional
idle line), the fatal branch is not taken, and the bucket map holds
exactly one entry per frame sequence occurring in the input, whose count
equals the number of occurrences of that exact ordered sequence. -/
theorem c1_theorem (cs : List FrameTS) (idle : Nat)
    (h : ∀ c ∈ cs, c.frames ≠ []) :
    (PrintFrames cs idle).2 = false ∧
    (PrintFrames cs idle).1 =
      (if idle ≠ 0 then [idleLine idle] else []) ++
        (bucketsOf cs).map (fun b => foldedLine b.1 b.2) ∧
    ∀ fs : List String, countsFor (bucketsOf cs) fs =
      if (cs.map FrameTS.frames).count fs = 0 then []
      else [(cs.map FrameTS.frames).count fs] := by
  have hkeys : ∀ b ∈ bucketsOf cs, b.1 ≠ ([] : List String) := by
    intro b hb
    rcases List.mem_map.mp (bucketsOf_keys cs b hb) with ⟨c, hc, hfr⟩
    rw [← hfr]
    exact h c hc
  have hp := printBuckets_of_keys_ne_nil (bucketsOf cs) hkeys
  refine ⟨?_, ?_, fun fs => countsFor_bucketsOf cs fs⟩
  · simp [PrintFrames, hp]
  · simp [PrintFrames, hp]

/-- Witness for `c1_theorem`: two identical stacks and a distinct one,
with two idle ticks. -/
theorem c1_witness :
    (∀ c ∈ [FrameTS.mk 0 ["a"], FrameTS.mk 1 ["a"], FrameTS.mk 2 ["b", "a"]],
        c.frames ≠ []) ∧
    ((PrintFrames [FrameTS.mk 0 ["a"], FrameTS.mk 1 ["a"], FrameTS.mk 2 ["b", "a"]] 2).2
        = false ∧
      (PrintFrames [FrameTS.mk 0 ["a"], FrameTS.mk 1 ["a"], FrameTS.mk 2 ["b", "a"]] 2).1 =
        (if 2 ≠ 0 then [idleLine 2] else []) ++
          (bucketsOf [FrameTS.mk 0 ["a"], FrameTS.mk 1 ["a"], FrameTS.mk 2 ["b", "a"]]).map
            (fun b => foldedLine b.1 b.2) ∧
      ∀ fs : List String,
        countsFor (bucketsOf [FrameTS.mk 0 ["a"], FrameTS.mk 1 ["a"],
            FrameTS.mk 2 ["b", "a"]]) fs =
          if (([FrameTS.mk 0 ["a"], FrameTS.mk 1 ["a"],
              FrameTS.mk 2 ["b", "a"]]).map FrameTS.frames).count fs = 0 then []
          else [(([FrameTS.mk 0 ["a"], FrameTS.mk 1 ["a"],
              FrameTS.mk 2 ["b", "a"]]).map FrameTS.frames).count fs]) :=
  ⟨by decide, c1_theorem _ 2 (by decide)⟩

/-! ## Claim C2 -/

/-- C2, as stated, is false for the timestamped renderer: the internal
leaf-first sequence `[a, b, c]` is rendered as `"c;b;a;"` — with a
trailing semicolon — and the line `"c;b;a"` does not occur. -/
theorem c2_counterexample :
    PrintFramesTS [FrameTS.mk 5 ["a", "b", "c"]] = ["5", "c;b;a;"] ∧
    "c;b;a" ∉ PrintFramesTS [FrameTS.mk 5 ["a", "b", "c"]] := by decide

/-- C2 (amended): for an internal leaf-first sequence `[f0, f1, f2]` the
folded output renders the root-first `f2;f1;f0` (followed by the space
and count), while the timestamped output renders `f2;f1;f0;` with a
trailing semicolon. -/
theorem c2_theorem (f0 f1 f2 : String) (t : Nat) :
    (PrintFrames [FrameTS.mk t [f0, f1, f2]] 0).1
      = [f2 ++ ";" ++ f1 ++ ";" ++ f0 ++ " " ++ toString 1] ∧
    PrintFramesTS [FrameTS.mk t [f0, f1, f2]]
      = [toString t, f2 ++ ";" ++ f1 ++ ";" ++ f0 ++ ";"] := by
  constructor
  · simp [PrintFrames, bucketsOf, insertBucket, printBuckets, foldedLine,
      foldedStackLoop, String.append_assoc]
  · simp [PrintFramesTS, tsLinesOf, tsStackLoop, String.append_assoc,
      String.append_empty]

/-! ## Claim C3 -/

/-- C3, as stated, is false: the second tick's stack line is `"b;a;"`,
with a trailing semicolon, and `"b;a"` does not occur in the output. -/
theorem c3_counterexample :
    PrintFramesTS [FrameTS.mk 1000 [], FrameTS.mk 1007 ["a", "b"]]
      = ["1000", "(idle)", "1007", "b;a;"] ∧
    "b;a" ∉ PrintFramesTS [FrameTS.mk 1000 [], FrameTS.mk 1007 ["a", "b"]] := by
  decide

/-- C3 (amended): for ticks at times `T0` and `T0+D` with frame sequences
`[]` and `[a, b]`, the timestamped output is `T0`'s microsecond value,
then `(idle)`, then `(T0+D)`'s microsecond value, then `b;a;` — the
root-first join in which every frame carries a trailing semicolon. -/
theorem c3_theorem (t0 d : Nat) (a b : String) :
    PrintFramesTS [FrameTS.mk t0 [], FrameTS.mk (t0 + d) [a, b]]
      = [toString t0, "(idle)", toString (t0 + d), b ++ ";" ++ a ++ ";"] := by
  simp [PrintFramesTS, tsLinesOf, tsStackLoop, String.append_assoc,
    String.append_empty]

/-! ## Claim C4 -/

/-- C4: with idle excluded the loop's idle counter stays 0, so the folded
output is the bucket lines alone — no idle line — regardless of how many
idle ticks occurred; with idle included the counter equals the number of
idle ticks, the output begins with the `(idle) COUNT` line exactly when
that number is nonzero, and carries no idle line when it is zero. -/
theorem c4_theorem (ticks : List TickObs) :
    (collect false false ticks).2 = 0 ∧
    (PrintFrames (collect false false ticks).1 (collect false false ticks).2).1 =
      (printBuckets (bucketsOf (collect false false ticks).1)).1 ∧
    (collect true false ticks).2 = idleTicks ticks ∧
    (PrintFrames (collect true false ticks).1 (collect true false ticks).2).1 =
      (if idleTicks ticks ≠ 0 then [idleLine (idleTicks ticks)] else []) ++
        (printBuckets (bucketsOf (collect true false ticks).1)).1 := by
  rw [collect_excluded, collect_included_nots]
  refine ⟨rfl, ?_, rfl, ?_⟩
  · simp [PrintFrames]
  · simp [PrintFrames]

/-! ## Claim C5 -/

/-- C5, as stated, is false: under idle exclusion (`include_idle = false`)
with timestamps requested (`include_ts = true`), an idle tick is neither
counted nor recorded — `collect` returns `([], 0)`, not the claimed
count 1 with a recorded empty-frames snapshot. -/
theorem c5_counterexample :
    collect false true [TickObs.mk 7 none] = ([], 0) ∧
    collect false true [TickObs.mk 7 none] ≠ ([FrameTS.mk 7 []], 1) := by decide

/-- C5 (amended): when idle exclusion is requested, idle ticks are
neither counted nor materialized — even in timestamp mode, where the idle
tick's timestamp is silently dropped from the series; only with idle
included are idle ticks counted, and only with idle included AND
timestamps requested is each tick (idle ones as empty-frames snapshots)
recorded individually. -/
theorem c5_theorem (it : Bool) (ticks : List TickObs) :
    collect false it ticks = (ticks.filterMap snapOf, 0) ∧
    (collect true true ticks).1 =
      ticks.map (fun t => ⟨t.now, t.frames.getD []⟩) ∧
    (collect true false ticks).1 = ticks.filterMap snapOf := by
  refine ⟨collect_excluded it ticks, ?_, ?_⟩
  · rw [collect_included_ts]
  · rw [collect_included_nots]

/-! ## Claim C6 -/

/-- C6: a `PtraceException` after mid-run ticks that left at least one
snapshot or a nonzero idle count yields exit code 0, and the stdout is
exactly what a normal end of run over the same collected data would have
printed, in the configured output format. -/
theorem c6_theorem (p : String) (ii it : Bool) (ticks : List TickObs)
    (msg : String)
    (hp : ¬(strtol10 p > pidMax ∨ strtol10 p < pidMin))
    (hdata : (collect ii it ticks).1 ≠ [] ∨ (collect ii it ticks).2 ≠ 0) :
    (mainModel [p] ii it (.run ticks (some msg))).exit = 0 ∧
    (mainModel [p] ii it (.run ticks (some msg))).out =
      (mainModel [p] ii it (.run ticks none)).out := by
  simp [mainModel, hp, hdata]

/-- Witness for `c6_theorem`: one non-idle tick collected before the
target vanished. -/
theorem c6_witness :
    (¬(strtol10 "5" > pidMax ∨ strtol10 "5" < pidMin)) ∧
    ((collect true false [TickObs.mk 1 (some ["f"])]).1 ≠ [] ∨
      (collect true false [TickObs.mk 1 (some ["f"])]).2 ≠ 0) ∧
    ((mainModel ["5"] true false
        (.run [TickObs.mk 1 (some ["f"])] (some "gone"))).exit = 0 ∧
      (mainModel ["5"] true false
          (.run [TickObs.mk 1 (some ["f"])] (some "gone"))).out =
        (mainModel ["5"] true false (.run [TickObs.mk 1 (some ["f"])] none)).out) :=
  ⟨by decide, by decide,
    c6_theorem ("5") true false [TickObs.mk 1 (some ["f"])] ("gone")
      (by decide) (by decide)⟩

/-! ## Claim C7 -/

/-- C7: exit code 1 with no stack data on stdout when (a) the positional
argument count is not 1 (usage text to stderr), (b) the parsed PID is
outside the `pid_t` range, (c) a trace/locate error occurs at startup, or
(d) a trace error occurs with zero snapshots and zero idle ticks
collected; in cases (c) and (d) the exception message goes to stderr. -/
theorem c7_theorem (ps : List String) (p msg : String) (ii it : Bool)
    (oc : RunOutcome) (ticks : List TickObs) :
    (ps.length ≠ 1 → mainModel ps ii it oc = ⟨1, [], [usageStr], none⟩) ∧
    ((strtol10 p > pidMax ∨ strtol10 p < pidMin) →
      mainModel [p] ii it oc =
        ⟨1, [],
          ["PID " ++ toString (strtol10 p) ++ " is out of valid PID range."],
          none⟩) ∧
    (¬(strtol10 p > pidMax ∨ strtol10 p < pidMin) →
      mainModel [p] ii it (.startupFail msg) =
        ⟨1, [], [msg], some (strtol10 p)⟩) ∧
    (¬(strtol10 p > pidMax ∨ strtol10 p < pidMin) →
      collect ii it ticks = ([], 0) →
      mainModel [p] ii it (.run ticks (some msg)) =
        ⟨1, [], [msg], some (strtol10 p)⟩) := by
  refine ⟨?_, ?_, ?_, ?_⟩
  · intro h
    match ps with
    | [] => rfl
    | [x] => exact absurd rfl h
    | x :: y :: l => rfl
  · intro h
    simp [mainModel, h]
  · intro h
    simp [mainModel, h]
  · intro h hc
    simp [mainModel, h, hc]

/-- Witness for `c7_theorem`: two positionals; an over-range PID; a
startup failure; a first-tick failure with nothing collected. -/
theorem c7_witness :
    mainModel ["8", "9"] true false (.run [] none) = ⟨1, [], [usageStr], none⟩ ∧
    mainModel ["9999999999"] true false (.run [] none) =
      ⟨1, [],
        ["PID " ++ toString (strtol10 "9999999999") ++
          " is out of valid PID range."], none⟩ ∧
    mainModel ["5"] true false (.startupFail "attach fail") =
      ⟨1, [], ["attach fail"], some (strtol10 "5")⟩ ∧
    mainModel ["5"] true false (.run [] (some "gone")) =
      ⟨1, [], ["gone"], some (strtol10 "5")⟩ :=
  ⟨ ( c7_theorem (["8", "9"]) ("5") ("m") true false (.run [] none) []).1
      (by decide),
    ( c7_theorem [] ("9999999999") ("m") true false (.run [] none) []).2.1
      (by decide),
    ( c7_theorem [] ("5") ("attach fail") true false (.run [] none) []).2.2.1
      (by decide),
    ( c7_theorem [] ("5") ("gone") true false (.run [] none) []).2.2.2
      (by decide) (by decide)⟩

/-! ## Claim C8 -/

/-- Shape of the loop's event list when the break fires exactly at the
last tick: each non-final tick contributes read-detach-sleep-attach, the
final tick contributes only its read — the `break` at line 192 precedes
`PtraceDetach` at line 194, so no detach follows the final read. -/
theorem loopEvents_shape (interval endT : Nat) :
    ∀ (ts : List TickObs) (t : TickObs),
      (∀ u ∈ (t :: ts).dropLast, u.now + interval < endT) →
      ((t :: ts).getLast (List.cons_ne_nil t ts)).now + interval ≥ endT →
      loopEvents interval endT (t :: ts) =
        ((t :: ts).dropLast.flatMap
          fun _ => [Ev.read, Ev.detach, Ev.sleep, Ev.attach]) ++ [Ev.read] := by
  intro ts
  induction ts with
  | nil =>
      intro t hmid hlast
      simp only [List.getLast_singleton] at hlast
      simp [loopEvents, hlast]
  | cons t' ts' ih =>
      intro t hmid hlast
      have h1 : t.now + interval < endT := hmid t (by simp [List.dropLast])
      have hmid' : ∀ u ∈ (t' :: ts').dropLast, u.now + interval < endT := by
        intro u hu
        exact hmid u (by simp [List.dropLast, hu])
      rw [List.getLast_cons (List.cons_ne_nil t' ts')] at hlast
      rw [loopEvents, if_neg (by omega), ih t' hmid' hlast]
      simp [List.dropLast]

/-- C8, as stated, is false: in a run whose single tick's clock reading
makes `now + interval >= end` hold, the loop breaks right after the
snapshot reads — the stop decision precedes the detach — and NO detach
event occurs on that exit path, so the target is left attached when the
sampling loop ends. -/
theorem c8_counterexample :
    runEvents 10 50 [TickObs.mk 100 (some ["a"])] = [Ev.attach, Ev.read] ∧
    Ev.detach ∉ runEvents 10 50 [TickObs.mk 100 (some ["a"])] := by decide

/-- C8 (amended): each tick is attached before its reads, the stop
decision follows the reads, and only when the loop continues does a
detach (then sleep, then re-attach) follow; on the exit path taken at the
final tick no detach is performed — the run's event trace is the initial
attach, read-detach-sleep-attach for every non-final tick, and a bare
read for the final tick. -/
theorem c8_theorem (interval endT : Nat) (t : TickObs) (ts : List TickObs)
    (hmid : ∀ u ∈ (t :: ts).dropLast, u.now + interval < endT)
    (hlast : ((t :: ts).getLast (List.cons_ne_nil t ts)).now + interval ≥ endT) :
    runEvents interval endT (t :: ts) =
      Ev.attach ::
        (((t :: ts).dropLast.flatMap
          fun _ => [Ev.read, Ev.detach, Ev.sleep, Ev.attach]) ++ [Ev.read]) := by
  rw [runEvents, loopEvents_shape interval endT ts t hmid hlast]

/-- Witness for `c8_theorem`: a two-tick run whose second clock reading
triggers the break. -/
theorem c8_witness :
    (∀ u ∈ ([TickObs.mk 100 none, TickObs.mk 490 (some ["a"])]).dropLast,
      u.now + 10 < 500) ∧
    (([TickObs.mk 100 none, TickObs.mk 490 (some ["a"])]).getLast
        (List.cons_ne_nil _ _)).now + 10 ≥ 500 ∧
    runEvents 10 500 [TickObs.mk 100 none, TickObs.mk 490 (some ["a"])] =
      Ev.attach ::
        ((([TickObs.mk 100 none, TickObs.mk 490 (some ["a"])]).dropLast.flatMap
          fun _ => [Ev.read, Ev.detach, Ev.sleep, Ev.attach]) ++ [Ev.read]) :=
  ⟨by decide, by decide,
    c8_theorem 10 500 (TickObs.mk 100 none) [TickObs.mk 490 (some ["a"])]
      (by decide) (by decide)⟩

/-! ## Claim C9 -/

/-- C9: under the walker's guarantee that non-idle ticks carry non-empty
frame sequences, every snapshot handed to the folded renderer has a
non-empty frame sequence — idle ticks never materialize a snapshot in
folded mode, whichever way `-x` is set — so `PrintFrames`'s empty-bucket
fatal-error branch is unreachable. -/
theorem c9_theorem (ii : Bool) (ticks : List TickObs)
    (h : WalkerSeqsNonempty ticks) :
    (∀ c ∈ (collect ii false ticks).1, c.frames ≠ []) ∧
    (PrintFrames (collect ii false ticks).1 (collect ii false ticks).2).2 =
      false := by
  have hfst : (collect ii false ticks).1 = ticks.filterMap snapOf := by
    cases ii
    · rw [collect_excluded]
    · rw [collect_included_nots]
  have hne : ∀ c ∈ ticks.filterMap snapOf, c.frames ≠ [] := by
    intro c hc hnil
    rcases List.mem_filterMap.mp hc with ⟨t, ht, hsnap⟩
    cases hfr : t.frames with
    | none => rw [snapOf, hfr] at hsnap; simp at hsnap
    | some fs =>
        rw [snapOf, hfr] at hsnap
        have hc' : (⟨t.now, fs⟩ : FrameTS) = c := by simpa using hsnap
        have hfs : fs = [] := by
          rw [← hc'] at hnil
          exact hnil
        apply h t ht
        rw [hfr, hfs]
  have hne' : ∀ c ∈ (collect ii false ticks).1, c.frames ≠ [] := by
    rw [hfst]; exact hne
  refine ⟨hne', ?_⟩
  have hkeys : ∀ b ∈ bucketsOf (collect ii false ticks).1,
      b.1 ≠ ([] : List String) := by
    intro b hb
    rcases List.mem_map.mp (bucketsOf_keys _ b hb) with ⟨c, hc, hfr⟩
    rw [← hfr]
    exact hne' c hc
  simp [PrintFrames, printBuckets_of_keys_ne_nil _ hkeys]

/-- Witness for `c9_theorem`: one running tick and one idle tick. -/
theorem c9_witness :
    WalkerSeqsNonempty [TickObs.mk 1 (some ["a"]), TickObs.mk 2 none] ∧
    ((∀ c ∈ (collect true false
        [TickObs.mk 1 (some ["a"]), TickObs.mk 2 none]).1, c.frames ≠ []) ∧
      (PrintFrames
          (collect true false [TickObs.mk 1 (some ["a"]), TickObs.mk 2 none]).1
          (collect true false
            [TickObs.mk 1 (some ["a"]), TickObs.mk 2 none]).2).2 = false) :=
  ⟨by decide,
    c9_theorem true [TickObs.mk 1 (some ["a"]), TickObs.mk 2 none] (by decide)⟩

/-! ## Claim C10 -/

/-- C10, as stated, is false in its "yields 0" part: `"12abc"` is not a
valid decimal number, yet `strtol` yields its numeric prefix 12, not 0. -/
theorem c10_counterexample :
    isValidDecimal "12abc" = false ∧ strtol10 "12abc" = 12 := by decide

/-- All post-range-check paths of `main` attempt `PtraceAttach(pid)`. -/
theorem mainModel_attached (p : String) (ii it : Bool) (oc : RunOutcome)
    (hr : ¬(strtol10 p > pidMax ∨ strtol10 p < pidMin)) :
    (mainModel [p] ii it oc).attached = some (strtol10 p) := by
  cases oc with
  | startupFail msg => simp [mainModel, hr]
  | run ticks exc =>
      cases exc with
      | none => simp [mainModel, hr]
      | some msg =>
          by_cases hd : (collect ii it ticks).1 ≠ [] ∨ (collect ii it ticks).2 ≠ 0 <;>
            simp [mainModel, hr, hd]

/-- C10 (amended): for every positional argument whose `strtol` scan
finds no leading digits (e.g. `"abc"`), the parse yields 0 with no error
detection, 0 passes the `pid_t` range check, and an attach to PID 0 is
attempted — the argument is never rejected as a usage error before
attaching.  (For other non-numeric arguments, e.g. `"12abc"`, the value
of the longest leading digit run is used instead of 0.) -/
theorem c10_theorem (s : String) (ii it : Bool) (oc : RunOutcome)
    (h : strtolDigits s = []) :
    strtol10 s = 0 ∧ (mainModel [s] ii it oc).attached = some 0 := by
  have h0 : strtol10 s = 0 := by
    rw [strtol10, h]
    simp [longMin, longMax]
  refine ⟨h0, ?_⟩
  have hr : ¬(strtol10 s > pidMax ∨ strtol10 s < pidMin) := by
    rw [h0]
    decide
  rw [mainModel_attached s ii it oc hr, h0]

/-- Witness for `c10_theorem`: the argument `"abc"`. -/
theorem c10_witness :
    strtolDigits "abc" = [] ∧
    (strtol10 "abc" = 0 ∧
      (mainModel ["abc"] true false (.run [] none)).attached = some 0) :=
  ⟨by decide, c10_theorem ("abc") true false (.run [] none) (by decide)⟩

end Pyflame
